import Mathlib

/-!
Shallow embedding of the contabilidad-web transaction pipeline
(src/app.py and src/app.py.py) together with the spec-modelled
RecurrenceDetector, and proofs of the frozen claims about it.
-/

/-- A normalized ledger record, as the app derives it from one sheet row:
`fecha` is the coerced datetime (none on unparseable input), `monto`
the numeric amount, `esFijo` the stored text of the Es_Fijo column. -/
structure Registro where
  fecha : Option (Nat × Nat × Nat)
  descripcion : String
  monto : Rat
  categoria : String
  esFijo : String
  deriving DecidableEq, Repr

/-! ### Amount parsing: `limpiar_importe` from src/app.py lines 57-63 -/

/-- Python `str.strip()`: drop whitespace from both ends. -/
def recortar (l : List Char) : List Char :=
  ((l.dropWhile Char.isWhitespace).reverse.dropWhile Char.isWhitespace).reverse

/-- Fuel-indexed body of Python `str.replace`: replace non-overlapping
occurrences of `pat` by `rep`, scanning left to right. -/
def reemplazarAux : Nat → List Char → List Char → List Char → List Char
  | 0, _, _, l => l
  | _ + 1, _, _, [] => []
  | n + 1, pat, rep, c :: cs =>
    if pat ≠ [] ∧ pat.isPrefixOf (c :: cs) then
      rep ++ reemplazarAux n pat rep ((c :: cs).drop pat.length)
    else
      c :: reemplazarAux n pat rep cs

/-- Python `s.replace(pat, rep)` on character lists.  Each scan step
consumes at least one character, so `l.length` fuel always suffices. -/
def reemplazar (pat rep l : List Char) : List Char :=
  reemplazarAux l.length pat rep l

/-- Digits of a decimal numeral to a natural number. -/
def digitosANat (cs : List Char) : Nat :=
  cs.foldl (fun n c => n * 10 + (c.toNat - 48)) 0

/-- Python `float(s)` restricted to strings over digits, point and minus
(the only characters the cleaning step lets through): at most one leading
minus, at most one point, at least one digit, nothing else; `none` models
the `ValueError` branch. -/
def parseDec (l : List Char) : Option Rat :=
  let neg := l.head? = some '-'
  let body := if neg then l.drop 1 else l
  if body = [] then none
  else if body.any (fun c => !(c.isDigit || c = '.')) then none
  else if 1 < (body.filter (fun c => c = '.')).length then none
  else if !body.any Char.isDigit then none
  else
    let ent := body.takeWhile (fun c => c ≠ '.')
    let dec := (body.dropWhile (fun c => c ≠ '.')).drop 1
    let n : Int := digitosANat (ent ++ dec)
    some (mkRat (if neg then -n else n) (10 ^ dec.length))

/-- The pre-cleaning of `limpiar_importe`: strip, drop quotes, drop
`" EUR"`, normalize the U+2212 minus — the replaces before the comma
branch. -/
def preLimpia (valor : String) : List Char :=
  reemplazar ['−'] ['-']
    (reemplazar [' ', 'E', 'U', 'R'] []
      (reemplazar ['"'] [] (recortar valor.toList)))

/-- Characters `limpiar_importe` keeps after separator handling. -/
def esCaracterNumerico (c : Char) : Bool :=
  c.isDigit || c = '.' || c = '-'

/-- The cleaned token handed to `float`: if a comma is present, points are
removed first and then the comma becomes the decimal point; finally only
digit, point and minus survive. -/
def formaLimpia (valor : String) : List Char :=
  if ',' ∈ preLimpia valor then
    (reemplazar [','] ['.'] (reemplazar ['.'] [] (preLimpia valor))).filter esCaracterNumerico
  else
    (preLimpia valor).filter esCaracterNumerico

/-- `limpiar_importe` (src/app.py lines 57-63): blank input is zero, and a
cleaning failure (`float` raising) is caught and returned as zero. -/
def limpiar_importe (valor : String) : Rat :=
  if recortar valor.toList = [] then 0
  else (parseDec (formaLimpia valor)).getD 0

/-! ### Date normalization and the year view -/

/-- Split a character list at every separator character. -/
def separarAux (p : Char → Bool) : List Char → List Char → List (List Char)
  | [], acc => [acc.reverse]
  | c :: cs, acc =>
    if p c then acc.reverse :: separarAux p cs []
    else separarAux p cs (c :: acc)

/-- `str.split` on the date separators. -/
def separar (p : Char → Bool) (l : List Char) : List (List Char) :=
  separarAux p l []

/-- Modelled from the spec: the DateNormalizer (`pd.to_datetime(...,
dayfirst=True, errors='coerce')` in src/app.py line 72 is library code):
a day-first `DD/MM/YYYY` parser tolerant of `/` or `-` separators that
returns `none` instead of raising on unparseable input. -/
def parseFecha (s : String) : Option (Nat × Nat × Nat) :=
  match separar (fun c => c = '/' || c = '-') (recortar s.toList) with
  | [ds, ms, ys] =>
    if ds ≠ [] ∧ ms ≠ [] ∧ ys ≠ [] ∧
        ds.all Char.isDigit ∧ ms.all Char.isDigit ∧ ys.all Char.isDigit then
      let d := digitosANat ds
      let m := digitosANat ms
      let y := digitosANat ys
      if 1 ≤ m ∧ m ≤ 12 ∧ 1 ≤ d ∧ d ≤ 31 then some (y, m, d) else none
    else none
  | _ => none

/-- One raw sheet row, textual fields as stored. -/
structure FilaCruda where
  fecha : String
  tipo : String
  categoria : String
  descripcion : String
  monto : String
  esFijo : String
  deriving DecidableEq, Repr

/-- `load_data` row normalization (src/app.py lines 71-72): derive
`Importe_Num` and `Fecha_DT` for one row; no row is dropped. -/
def normalizar_fila (f : FilaCruda) : Registro :=
  { fecha := parseFecha f.fecha
    descripcion := f.descripcion
    monto := limpiar_importe f.monto
    categoria := f.categoria
    esFijo := f.esFijo }

/-- The raw ledger `df_raw`: every sheet row normalized, none discarded. -/
def cargar_registros (filas : List FilaCruda) : List Registro :=
  filas.map normalizar_fila

/-- `df_raw["Año"]`: the year of the coerced date, `none` for `NaT`. -/
def anio (r : Registro) : Option Nat :=
  r.fecha.map (fun t => t.1)

/-- `df = df_raw[df_raw["Año"] == año_sel]` (src/app.py line 94): a `NaN`
year never equals the selected year, so null-date records drop out. -/
def filtrar_anio (l : List Registro) (y : Nat) : List Registro :=
  l.filter (fun r => anio r = some y)

/-! ### Budget deduplication (src/app.py lines 178-183) -/

/-- Python `str.upper()` on the alphabet the app compares (ASCII plus the
accented I of `"SÍ"`). -/
def mayusEs (c : Char) : Char :=
  if c = 'í' then 'Í' else c.toUpper

/-- `df["Es_Fijo"].str.upper()`. -/
def upperEs (s : String) : String :=
  String.mk (s.toList.map mayusEs)

/-- The `df_fijos` row filter: `Es_Fijo` upper-cases to `"SÍ"` and the
amount is negative. -/
def es_gasto_fijo (r : Registro) : Bool :=
  (upperEs r.esFijo == "SÍ") && decide (r.monto < 0)

/-- `df_fijos` (src/app.py line 178). -/
def df_fijos (l : List Registro) : List Registro :=
  l.filter es_gasto_fijo

/-- Encoding making the lexicographic date order a Nat comparison on
calendar dates (month below 13, day below 32). -/
def encFecha : Nat × Nat × Nat → Nat
  | (y, m, d) => (y * 13 + m) * 32 + d

/-- The sort key order of `sort_values("Fecha_DT")`: ascending by date,
missing dates (`NaT`) placed after every real date. -/
def fechaLe : Option (Nat × Nat × Nat) → Option (Nat × Nat × Nat) → Bool
  | _, none => true
  | none, some _ => false
  | some a, some b => decide (encFecha a ≤ encFecha b)

/-- Record order used by the budget sort. -/
def fechaRel (r s : Registro) : Prop :=
  fechaLe r.fecha s.fecha = true

instance : DecidableRel fechaRel := fun _ _ => instDecidableEqBool _ _

/-- `drop_duplicates(subset=['Descripcion'], keep='last')`: keep a row iff
no later row carries the same description, preserving row order. -/
def keepLast : List Registro → List Registro
  | [] => []
  | r :: l =>
    if l.any (fun s => s.descripcion = r.descripcion) then keepLast l
    else r :: keepLast l

/-- The deduplication step of `presupuesto` (src/app.py line 182):
sort ascending by date, then keep the last row of each description. -/
def dedupe (l : List Registro) : List Registro :=
  keepLast (List.insertionSort fechaRel l)

/-- `presupuesto` (src/app.py lines 178-182): filter to fixed expenses,
then deduplicate. -/
def presupuesto (l : List Registro) : List Registro :=
  dedupe (df_fijos l)

/-- `total_mes`: the projected monthly floor. -/
def total_mes (l : List Registro) : Rat :=
  ((presupuesto l).map Registro.monto).sum

/-! ### Manual entry form (src/app.py.py lines 61-82) -/

/-- `monto_final = -monto if tipo == "Gasto" else monto`
(src/app.py.py line 73). -/
def monto_final (tipo : String) (monto : Rat) : Rat :=
  if tipo = "Gasto" then -monto else monto

/-- The submit path of the entry form: the amount is persisted through
`save_entry` only when `monto > 0`, otherwise the submission is rejected
with an error (src/app.py.py lines 71-82).  `some a` is the persisted
amount. -/
def submit_entry (tipo : String) (monto : Rat) : Option Rat :=
  if 0 < monto then some (monto_final tipo monto) else none

/-! ### Column handling in `load_data` (src/app.py lines 68-69,
src/app.py.py lines 40-43) -/

/-- A source batch: the columns present and the rows as cell lists. -/
structure Hoja where
  cols : List String
  filas : List (List (String × String))
  deriving DecidableEq, Repr

/-- The required columns of `load_data`. -/
def columnas_requeridas : List String :=
  ["Fecha", "Tipo", "Categoria", "Descripcion", "Importe", "Es_Fijo"]

/-- `if col not in df.columns: df[col] = ""`: a missing column is added
with the empty string in every row. -/
def agregar_columna (h : Hoja) (c : String) : Hoja :=
  if c ∈ h.cols then h
  else { cols := h.cols ++ [c], filas := h.filas.map (fun f => f ++ [(c, "")]) }

/-- The column-fixup loop of `load_data`. -/
def asegurar_columnas (h : Hoja) : Hoja :=
  columnas_requeridas.foldl agregar_columna h

/-- `load_data` column handling as a fallible operation: the code has no
failure path for missing columns — it always succeeds after the fixup. -/
def load_data (h : Hoja) : Except String Hoja :=
  Except.ok (asegurar_columnas h)

/-! ### RecurrenceDetector (spec-modelled) -/

/-- `month_bucket`: the (year, month) key of a record, `none` when the
date is null. -/
def month_bucket (r : Registro) : Option (Nat × Nat) :=
  r.fecha.map (fun t => (t.1, t.2.1))

/-- Modelled from the spec: the RecurrenceDetector is not in src/ (there
`Es_Fijo` is a manual checkbox and editor column); per spec 4.4, the
distinct month buckets in which the pair (description, amount) occurs,
null dates excluded. -/
def pair_months (l : List Registro) (d : String) (a : Rat) : List (Nat × Nat) :=
  (l.filterMap (fun r =>
    if r.descripcion = d ∧ r.monto = a then month_bucket r else none)).dedup

/-- Modelled from the spec: a pair is recurring iff the count of distinct
month buckets in which it appears is greater than 1. -/
def es_fijo (l : List Registro) (d : String) (a : Rat) : Bool :=
  decide (1 < (pair_months l d a).length)

/-- Modelled from the spec: the caller applies `is_fixed = true` to every
record whose pair is in the detected set. -/
def aplicar_fijos (l : List Registro) : List Registro :=
  l.map (fun r =>
    if es_fijo l r.descripcion r.monto then { r with esFijo := "SÍ" } else r)

/-- Modelled from the spec: one batch import re-evaluates recurrence over
the existing ledger plus the newly imported rows. -/
def procesar_importacion (historial nuevos : List Registro) : List Registro :=
  aplicar_fijos (historial ++ nuevos)

/-! ### Order facts for the budget sort -/

theorem fechaLe_none_right : ∀ a, fechaLe a none = true
  | none => rfl
  | some _ => rfl

theorem fechaLe_refl : ∀ a, fechaLe a a = true
  | none => rfl
  | some _ => by simp [fechaLe]

theorem fechaLe_total : ∀ a b, fechaLe a b = true ∨ fechaLe b a = true
  | a, none => Or.inl (fechaLe_none_right a)
  | none, some _ => Or.inr rfl
  | some a, some b => by
    simp only [fechaLe, decide_eq_true_eq]
    exact Nat.le_total _ _

theorem fechaLe_trans : ∀ {a b c}, fechaLe a b = true → fechaLe b c = true →
    fechaLe a c = true
  | a, _, none, _, _ => fechaLe_none_right a
  | some _, none, some _, _, h2 => by simp [fechaLe] at h2
  | none, none, some _, _, h2 => by simp [fechaLe] at h2
  | none, some _, some _, h1, _ => by simp [fechaLe] at h1
  | some a, some b, some c, h1, h2 => by
    simp only [fechaLe, decide_eq_true_eq] at *
    exact Nat.le_trans h1 h2

instance : IsTotal Registro fechaRel :=
  ⟨fun a b => fechaLe_total a.fecha b.fecha⟩

instance : IsTrans Registro fechaRel :=
  ⟨fun _ _ _ h1 h2 => fechaLe_trans h1 h2⟩

theorem fechaRel_refl (r : Registro) : fechaRel r r :=
  fechaLe_refl r.fecha

/-! ### Facts about `keepLast` -/

theorem keepLast_sublist : ∀ l : List Registro, (keepLast l).Sublist l := by
  intro l
  induction l with
  | nil => simp [keepLast]
  | cons r t ih =>
    rw [keepLast]
    split
    · exact ih.trans (List.sublist_cons_self r t)
    · exact ih.cons₂ r

theorem mem_of_mem_keepLast {l : List Registro} {r : Registro}
    (h : r ∈ keepLast l) : r ∈ l :=
  (keepLast_sublist l).subset h

theorem keepLast_descs_nodup :
    ∀ l : List Registro, ((keepLast l).map Registro.descripcion).Nodup := by
  intro l
  induction l with
  | nil => simp [keepLast]
  | cons r t ih =>
    rw [keepLast]
    split
    · exact ih
    · rename_i hany
      simp only [List.map_cons, List.nodup_cons]
      refine ⟨fun hmem => ?_, ih⟩
      obtain ⟨s, hs, hsd⟩ := List.mem_map.mp hmem
      exact hany (List.any_eq_true.mpr ⟨s, mem_of_mem_keepLast hs, decide_eq_true hsd⟩)

theorem keepLast_eq_self {l : List Registro}
    (h : (l.map Registro.descripcion).Nodup) : keepLast l = l := by
  induction l with
  | nil => rfl
  | cons r t ih =>
    simp only [List.map_cons, List.nodup_cons] at h
    rw [keepLast, if_neg, ih h.2]
    intro hany
    obtain ⟨s, hs, hsd⟩ := List.any_eq_true.mp hany
    exact h.1 (List.mem_map.mpr ⟨s, hs, of_decide_eq_true hsd⟩)

theorem mem_map_desc_keepLast :
    ∀ {l : List Registro} {d : String}, d ∈ l.map Registro.descripcion →
      d ∈ (keepLast l).map Registro.descripcion := by
  intro l
  induction l with
  | nil => intro d h; simp at h
  | cons r t ih =>
    intro d h
    rw [keepLast]
    rcases List.mem_map.mp h with ⟨s, hs, rfl⟩
    rcases List.mem_cons.mp hs with rfl | hst
    · split
      · rename_i hany
        obtain ⟨u, hu, hud⟩ := List.any_eq_true.mp hany
        have hud' : u.descripcion = s.descripcion := of_decide_eq_true hud
        exact hud' ▸ ih (List.mem_map.mpr ⟨u, hu, rfl⟩)
      · exact List.mem_map.mpr ⟨s, List.mem_cons_self s _, rfl⟩
    · split
      · exact ih (List.mem_map.mpr ⟨s, hst, rfl⟩)
      · rcases List.mem_map.mp (ih (List.mem_map.mpr ⟨s, hst, rfl⟩)) with ⟨u, hu, hud⟩
        exact List.mem_map.mpr ⟨u, List.mem_cons_of_mem _ hu, hud⟩

theorem keepLast_max_of_sorted :
    ∀ {l : List Registro}, List.Sorted fechaRel l →
      ∀ {x}, x ∈ keepLast l → ∀ {y}, y ∈ l →
        y.descripcion = x.descripcion → fechaRel y x := by
  intro l
  induction l with
  | nil => intro _ x hx; rw [keepLast] at hx; cases hx
  | cons r t ih =>
    intro hs x hx y hy hd
    have hrel : ∀ z ∈ t, fechaRel r z := List.rel_of_sorted_cons hs
    rw [keepLast] at hx
    split at hx
    · rcases List.mem_cons.mp hy with rfl | hyt
      · exact hrel x (mem_of_mem_keepLast hx)
      · exact ih hs.of_cons hx hyt hd
    · rename_i hany
      rcases List.mem_cons.mp hx with rfl | hxt
      · rcases List.mem_cons.mp hy with rfl | hyt
        · exact fechaRel_refl _
        · exact absurd (List.any_eq_true.mpr ⟨y, hyt, decide_eq_true hd⟩) hany
      · rcases List.mem_cons.mp hy with rfl | hyt
        · exact hrel x (mem_of_mem_keepLast hxt)
        · exact ih hs.of_cons hxt hyt hd

/-! ### Facts about `dedupe` and `presupuesto` -/

theorem sorted_dedupe (l : List Registro) : List.Sorted fechaRel (dedupe l) :=
  List.Pairwise.sublist (keepLast_sublist _) (List.sorted_insertionSort fechaRel l)

theorem mem_of_mem_dedupe {l : List Registro} {r : Registro}
    (h : r ∈ dedupe l) : r ∈ l :=
  (List.mem_insertionSort fechaRel).mp (mem_of_mem_keepLast h)

theorem mem_df_fijos_of_mem_presupuesto {l : List Registro} {r : Registro}
    (h : r ∈ presupuesto l) : r ∈ df_fijos l :=
  mem_of_mem_dedupe h

theorem mem_filter_of_mem_df_fijos {l : List Registro} {r : Registro}
    (h : r ∈ df_fijos l) : r ∈ l :=
  List.mem_of_mem_filter h

/-! ### Generic list facts -/

theorem length_le_one_of_all_eq {α : Type} {xs : List α} {m : α}
    (hn : xs.Nodup) (h : ∀ x ∈ xs, x = m) : xs.length ≤ 1 := by
  match xs, hn, h with
  | [], _, _ => simp
  | [x], _, _ => simp
  | x :: y :: t, hn, h =>
    have hx := h x (List.mem_cons_self x _)
    have hy := h y (List.mem_cons_of_mem x (List.mem_cons_self y t))
    rw [List.nodup_cons] at hn
    apply absurd _ hn.1
    rw [hx, hy]
    exact List.mem_cons_self m t

theorem one_lt_length_of_two_mem {α : Type} {xs : List α} {a b : α}
    (ha : a ∈ xs) (hb : b ∈ xs) (hab : a ≠ b) : 1 < xs.length := by
  match xs with
  | [] => cases ha
  | [x] =>
    rw [List.mem_singleton] at ha hb
    exact absurd (ha.trans hb.symm) hab
  | x :: y :: t =>
    simp only [List.length_cons]
    omega

/-! ### Facts about the spec-modelled RecurrenceDetector -/

theorem mem_pair_months {l : List Registro} {d : String} {a : Rat}
    {r : Registro} {m : Nat × Nat} (hr : r ∈ l) (hd : r.descripcion = d)
    (ha : r.monto = a) (hm : month_bucket r = some m) :
    m ∈ pair_months l d a := by
  rw [pair_months, List.mem_dedup]
  refine List.mem_filterMap.mpr ⟨r, hr, ?_⟩
  rw [if_pos ⟨hd, ha⟩]
  exact hm

theorem pair_months_all_eq {l : List Registro} {d : String} {a : Rat}
    {m : Nat × Nat}
    (h : ∀ r ∈ l, r.descripcion = d → r.monto = a → month_bucket r = some m) :
    ∀ x ∈ pair_months l d a, x = m := by
  intro x hx
  rw [pair_months, List.mem_dedup] at hx
  obtain ⟨r, hr, hfr⟩ := List.mem_filterMap.mp hx
  by_cases hc : r.descripcion = d ∧ r.monto = a
  · rw [if_pos hc] at hfr
    rw [h r hr hc.1 hc.2] at hfr
    exact (Option.some.inj hfr).symm
  · rw [if_neg hc] at hfr
    cases hfr

theorem es_fijo_of_two_months {l : List Registro} {d : String} {a : Rat}
    {r1 r2 : Registro} {m1 m2 : Nat × Nat}
    (h1 : r1 ∈ l) (h2 : r2 ∈ l)
    (hd1 : r1.descripcion = d) (ha1 : r1.monto = a)
    (hd2 : r2.descripcion = d) (ha2 : r2.monto = a)
    (hb1 : month_bucket r1 = some m1) (hb2 : month_bucket r2 = some m2)
    (hne : m1 ≠ m2) : es_fijo l d a = true :=
  decide_eq_true
    (one_lt_length_of_two_mem (mem_pair_months h1 hd1 ha1 hb1)
      (mem_pair_months h2 hd2 ha2 hb2) hne)

theorem es_fijo_false_of_single_month {l : List Registro} {d : String}
    {a : Rat} {m : Nat × Nat}
    (h : ∀ r ∈ l, r.descripcion = d → r.monto = a → month_bucket r = some m) :
    es_fijo l d a = false := by
  apply decide_eq_false
  intro hlt
  have hle : (pair_months l d a).length ≤ 1 :=
    length_le_one_of_all_eq (List.nodup_dedup _) (pair_months_all_eq h)
  omega

theorem pair_months_cons_none {l : List Registro} {d : String} {a : Rat}
    {r0 : Registro} (h0 : month_bucket r0 = none) :
    pair_months (r0 :: l) d a = pair_months l d a := by
  have h : (if r0.descripcion = d ∧ r0.monto = a then month_bucket r0 else none) = none := by
    split
    · exact h0
    · rfl
  simp only [pair_months, List.filterMap_cons, h]

/-! ### Facts about the column fixup of `load_data` -/

theorem cols_agregar_mono {h : Hoja} {c : String} (c0 : String)
    (hm : c ∈ h.cols) : c ∈ (agregar_columna h c0).cols := by
  rw [agregar_columna]
  split
  · exact hm
  · exact List.mem_append_left _ hm

theorem mem_cols_agregar (h : Hoja) (c : String) :
    c ∈ (agregar_columna h c).cols := by
  rw [agregar_columna]
  split
  · assumption
  · exact List.mem_append_right _ (List.mem_singleton_self c)

theorem cols_foldl_mono :
    ∀ (cs : List String) (h : Hoja) (c : String), c ∈ h.cols →
      c ∈ (cs.foldl agregar_columna h).cols := by
  intro cs
  induction cs with
  | nil => intro h c hm; exact hm
  | cons c0 cs ih =>
    intro h c hm
    exact ih (agregar_columna h c0) c (cols_agregar_mono c0 hm)

theorem mem_cols_foldl :
    ∀ (cs : List String) (h : Hoja) (c : String), c ∈ cs →
      c ∈ (cs.foldl agregar_columna h).cols := by
  intro cs
  induction cs with
  | nil => intro h c hm; cases hm
  | cons c0 cs ih =>
    intro h c hm
    rcases List.mem_cons.mp hm with rfl | hm
    · exact cols_foldl_mono cs _ c (mem_cols_agregar h c)
    · exact ih _ c hm

theorem filas_length_agregar (h : Hoja) (c : String) :
    (agregar_columna h c).filas.length = h.filas.length := by
  rw [agregar_columna]
  split
  · rfl
  · exact List.length_map _ _

theorem filas_length_foldl :
    ∀ (cs : List String) (h : Hoja),
      (cs.foldl agregar_columna h).filas.length = h.filas.length := by
  intro cs
  induction cs with
  | nil => intro h; rfl
  | cons c0 cs ih =>
    intro h
    rw [List.foldl_cons, ih (agregar_columna h c0), filas_length_agregar]

/-! ### Concrete records used to instantiate the claim theorems -/

/-- A fixed gym expense in January. -/
def rG1 : Registro :=
  { fecha := some (2025, 1, 10), descripcion := "Gym", monto := -30,
    categoria := "Ocio", esFijo := "SÍ" }

/-- A fixed gym expense in February with a different amount. -/
def rG2 : Registro :=
  { fecha := some (2025, 2, 10), descripcion := "Gym", monto := -25,
    categoria := "Ocio", esFijo := "SÍ" }

/-- A Netflix charge in January, not yet flagged. -/
def rN1 : Registro :=
  { fecha := some (2025, 1, 5), descripcion := "Netflix",
    monto := mkRat (-1299) 100, categoria := "Suscripciones", esFijo := "NO" }

/-- The same Netflix charge in February. -/
def rN2 : Registro :=
  { fecha := some (2025, 2, 5), descripcion := "Netflix",
    monto := mkRat (-1299) 100, categoria := "Suscripciones", esFijo := "NO" }

/-- A Netflix charge whose date failed to parse. -/
def rNulo : Registro :=
  { fecha := none, descripcion := "Netflix", monto := mkRat (-1299) 100,
    categoria := "Suscripciones", esFijo := "NO" }

/-- A one-row batch missing five of the six required columns. -/
def hoja0 : Hoja :=
  { cols := ["Fecha"], filas := [[("Fecha", "01/01/2025")]] }

/-- The (description, amount) pair of a record. -/
def par (r : Registro) : String × Rat :=
  (r.descripcion, r.monto)

/-! ### Claim theorems -/

/-- Claim C1: a (description, amount) pair is flagged fixed iff the count
of distinct month buckets in which it appears is greater than 1; all
occurrences inside one single month leave the pair unflagged, and
occurrences in two distinct months flag the pair and make the caller mark
every occurrence of it. -/
theorem c1_recurrencia_meses_distintos :
    (∀ (l : List Registro) (d : String) (a : Rat),
      es_fijo l d a = true ↔ 1 < (pair_months l d a).length) ∧
    (∀ (l : List Registro) (d : String) (a : Rat) (m : Nat × Nat),
      (∀ r ∈ l, r.descripcion = d → r.monto = a → month_bucket r = some m) →
      es_fijo l d a = false) ∧
    (∀ (l : List Registro) (d : String) (a : Rat) (r1 r2 : Registro)
      (m1 m2 : Nat × Nat), r1 ∈ l → r2 ∈ l →
      r1.descripcion = d → r1.monto = a → r2.descripcion = d → r2.monto = a →
      month_bucket r1 = some m1 → month_bucket r2 = some m2 → m1 ≠ m2 →
      es_fijo l d a = true ∧
        ∀ r ∈ l, r.descripcion = d → r.monto = a →
          { r with esFijo := "SÍ" } ∈ aplicar_fijos l) := by
  refine ⟨fun l d a => ⟨of_decide_eq_true, decide_eq_true⟩,
          fun l d a m h => es_fijo_false_of_single_month h,
          fun l d a r1 r2 m1 m2 h1 h2 hd1 ha1 hd2 ha2 hb1 hb2 hne => ?_⟩
  have hfix := es_fijo_of_two_months h1 h2 hd1 ha1 hd2 ha2 hb1 hb2 hne
  refine ⟨hfix, fun r hr hrd hra => ?_⟩
  rw [aplicar_fijos]
  refine List.mem_map.mpr ⟨r, hr, ?_⟩
  simp [hrd, hra, hfix]

/-- Witness for C1 at the Netflix examples of the spec. -/
theorem c1_testigo :
    es_fijo [rN1, rN2] "Netflix" (mkRat (-1299) 100) = true ∧
    es_fijo [rN1, rN1] "Netflix" (mkRat (-1299) 100) = false :=
  ⟨(c1_recurrencia_meses_distintos.2.2 [rN1, rN2] "Netflix"
      (mkRat (-1299) 100) rN1 rN2 (2025, 1) (2025, 2) (by decide) (by decide)
      (by decide) (by decide) (by decide) (by decide) (by decide) (by decide)
      (by decide)).1,
   c1_recurrencia_meses_distintos.2.1 [rN1, rN1] "Netflix"
      (mkRat (-1299) 100) (2025, 1) (by decide)⟩

/-- Claim C2 counterexample: two fixed expenses share one description but
carry different amounts, so the input holds two distinct (description,
amount) pairs; the output keeps a single record, because the code
deduplicates on the description alone, not on the pair. -/
theorem c2_contraejemplo :
    ("Gym", (-30 : Rat)) ∈ (df_fijos [rG1, rG2]).map par ∧
    ("Gym", (-30 : Rat)) ∉ (presupuesto [rG1, rG2]).map par :=
  ⟨by decide, by decide⟩

/-- Claim C2 as amended: the budget takes the records with `Es_Fijo`
upper-casing to `"SÍ"` and a negative amount, and keeps exactly one
record per distinct description (not per (description, amount) pair),
the one latest in the date-ascending sort with missing dates last. -/
theorem c2_presupuesto_enmendado (l : List Registro) :
    (∀ r ∈ presupuesto l, r ∈ df_fijos l) ∧
    ((presupuesto l).map Registro.descripcion).Nodup ∧
    (∀ d, d ∈ (df_fijos l).map Registro.descripcion ↔
      d ∈ (presupuesto l).map Registro.descripcion) ∧
    (∀ r ∈ presupuesto l, ∀ y ∈ df_fijos l,
      y.descripcion = r.descripcion → fechaRel y r) := by
  refine ⟨fun r hr => mem_df_fijos_of_mem_presupuesto hr,
          keepLast_descs_nodup _, fun d => ⟨fun hd => ?_, fun hd => ?_⟩, ?_⟩
  · have hp : d ∈ (List.insertionSort fechaRel (df_fijos l)).map
        Registro.descripcion :=
      ((List.perm_insertionSort fechaRel
        (df_fijos l)).map Registro.descripcion).mem_iff.mpr hd
    exact mem_map_desc_keepLast hp
  · obtain ⟨r, hr, rfl⟩ := List.mem_map.mp hd
    exact List.mem_map.mpr ⟨r, mem_df_fijos_of_mem_presupuesto hr, rfl⟩
  · intro r hr y hy hdesc
    have hy' : y ∈ List.insertionSort fechaRel (df_fijos l) :=
      (List.mem_insertionSort fechaRel).mpr hy
    exact keepLast_max_of_sorted
      (List.sorted_insertionSort fechaRel (df_fijos l)) hr hy' hdesc

/-- Witness for C2 on the two gym records. -/
theorem c2_testigo :
    rG2 ∈ df_fijos [rG1, rG2] ∧ fechaRel rG1 rG2 :=
  ⟨(c2_presupuesto_enmendado [rG1, rG2]).1 rG2 (by decide),
   (c2_presupuesto_enmendado [rG1, rG2]).2.2.2 rG2 (by decide) rG1
     (by decide) (by decide)⟩

/-- Claim C3: when the cleaned token contains a comma, `limpiar_importe`
removes every point first and only then turns the comma into the decimal
point; on the spec examples it yields 1200.50 and -34.95. -/
theorem c3_coma_separador_decimal :
    (∀ v : String, ',' ∈ preLimpia v →
      limpiar_importe v =
        (parseDec ((reemplazar [','] ['.']
          (reemplazar ['.'] [] (preLimpia v))).filter esCaracterNumerico)).getD 0) ∧
    limpiar_importe "1.200,50" = 120050 / 100 ∧
    limpiar_importe "-34,95" = -(3495 / 100) := by
  refine ⟨fun v h => ?_, ?_, ?_⟩
  · have hne : ¬(recortar v.toList = []) := by
      intro h0
      rw [preLimpia, h0] at h
      simp [reemplazar, reemplazarAux] at h
    rw [limpiar_importe, if_neg hne, formaLimpia, if_pos h]
  · have h : limpiar_importe "1.200,50" = mkRat 120050 100 := by decide
    rw [h, Rat.mkRat_eq_div]
    norm_num
  · have h : limpiar_importe "-34,95" = mkRat (-3495) 100 := by decide
    rw [h, Rat.mkRat_eq_div]
    norm_num

/-- Witness for C3 at the token "5,5". -/
theorem c3_testigo :
    ',' ∈ preLimpia "5,5" ∧
    limpiar_importe "5,5" =
      (parseDec ((reemplazar [','] ['.']
        (reemplazar ['.'] [] (preLimpia "5,5"))).filter esCaracterNumerico)).getD 0 :=
  ⟨by decide, c3_coma_separador_decimal.1 "5,5" (by decide)⟩

/-- Claim C4 counterexample: the entry form computes
`monto_final = -monto if tipo == "Gasto" else monto`, so a negative
magnitude labelled "Ingreso" stays negative instead of being normalized
to positive. -/
theorem c4_contraejemplo :
    monto_final "Ingreso" (-5) = -5 ∧ ¬(0 < monto_final "Ingreso" (-5)) := by
  constructor
  · rfl
  · decide

/-- Claim C4 as amended: the label decides the sign of a strictly positive
magnitude — "Gasto" forces negative and "Ingreso" keeps it positive — and
a non-positive magnitude never reaches sign resolution because the form
rejects it, so a conflicting negative magnitude cannot occur. -/
theorem c4_signo_enmendado (tipo : String) (monto : Rat) :
    (tipo = "Gasto" → 0 < monto → monto_final tipo monto < 0) ∧
    (tipo = "Ingreso" → 0 < monto → 0 < monto_final tipo monto) ∧
    (monto ≤ 0 → submit_entry tipo monto = none) := by
  refine ⟨fun ht hm => ?_, fun ht hm => ?_, fun hm => ?_⟩
  · rw [monto_final, if_pos ht]
    exact neg_lt_zero.mpr hm
  · rw [monto_final, if_neg]
    · exact hm
    · rw [ht]
      decide
  · rw [submit_entry, if_neg (not_lt.mpr hm)]

/-- Witness for C4 at magnitude 5 and a rejected -3. -/
theorem c4_testigo :
    monto_final "Gasto" 5 < 0 ∧ 0 < monto_final "Ingreso" 5 ∧
    submit_entry "Gasto" (-3) = none :=
  ⟨(c4_signo_enmendado "Gasto" 5).1 rfl (by norm_num),
   (c4_signo_enmendado "Ingreso" 5).2.1 rfl (by norm_num),
   (c4_signo_enmendado "Gasto" (-3)).2.2 (by norm_num)⟩

/-- Claim C5: re-evaluating recurrence over the whole ledger on an import
promotes a previously-unflagged older occurrence of the pair to fixed,
not only the newly imported one. -/
theorem c5_promocion_retroactiva (historial nuevos : List Registro)
    (r c : Registro) (m1 m2 : Nat × Nat)
    (hr : r ∈ historial) (hc : c ∈ nuevos) (_hprev : r.esFijo ≠ "SÍ")
    (hd : c.descripcion = r.descripcion) (ha : c.monto = r.monto)
    (hm1 : month_bucket r = some m1) (hm2 : month_bucket c = some m2)
    (hne : m1 ≠ m2) :
    { r with esFijo := "SÍ" } ∈ procesar_importacion historial nuevos := by
  have hfix : es_fijo (historial ++ nuevos) r.descripcion r.monto = true :=
    es_fijo_of_two_months (List.mem_append_left _ hr)
      (List.mem_append_right _ hc) rfl rfl hd ha hm1 hm2 hne
  rw [procesar_importacion, aplicar_fijos]
  refine List.mem_map.mpr ⟨r, List.mem_append_left _ hr, ?_⟩
  simp [hfix]

/-- Witness for C5: importing February's Netflix charge flags January's. -/
theorem c5_testigo :
    { rN1 with esFijo := "SÍ" } ∈ procesar_importacion [rN1] [rN2] :=
  c5_promocion_retroactiva [rN1] [rN2] rN1 rN2 (2025, 1) (2025, 2)
    (by decide) (by decide) (by decide) (by decide) (by decide)
    (by decide) (by decide) (by decide)

/-- Claim C6 counterexample: a batch missing a required column does not
fail — `load_data` fills each missing column with the empty string and
still yields the rows, so no blocking error is reported. -/
theorem c6_contraejemplo :
    "Importe" ∈ columnas_requeridas ∧ "Importe" ∉ hoja0.cols ∧
    load_data hoja0 = Except.ok (asegurar_columnas hoja0) ∧
    (asegurar_columnas hoja0).filas ≠ [] :=
  ⟨by decide, by decide, rfl, by decide⟩

/-- Claim C6 as amended: ingestion never fails a batch over missing
columns; every missing required column is added with the empty string in
each row, every required column is present afterwards, and the row count
is preserved. -/
theorem c6_columnas_enmendado (h : Hoja) :
    load_data h = Except.ok (asegurar_columnas h) ∧
    (∀ c ∈ columnas_requeridas, c ∈ (asegurar_columnas h).cols) ∧
    (asegurar_columnas h).filas.length = h.filas.length :=
  ⟨rfl, fun c hc => mem_cols_foldl _ h c hc, filas_length_foldl _ h⟩

/-- Witness for C6 at the one-row batch `hoja0`. -/
theorem c6_testigo :
    "Importe" ∈ (asegurar_columnas hoja0).cols ∧
    (asegurar_columnas hoja0).filas.length = hoja0.filas.length :=
  ⟨(c6_columnas_enmendado hoja0).2.1 "Importe" (by decide),
   (c6_columnas_enmendado hoja0).2.2⟩

/-- Claim C7: the amount cleaner is a total function — blank input gives
zero, and any token whose cleaned form `float` would reject (a word, a
double minus) also gives zero instead of raising. -/
theorem c7_importe_nunca_lanza :
    limpiar_importe "" = 0 ∧
    limpiar_importe "abc" = 0 ∧
    limpiar_importe "--5" = 0 ∧
    (∀ v : String, parseDec (formaLimpia v) = none → limpiar_importe v = 0) := by
  refine ⟨by decide, by decide, by decide, fun v h => ?_⟩
  by_cases h0 : recortar v.toList = []
  · rw [limpiar_importe, if_pos h0]
  · rw [limpiar_importe, if_neg h0, h]
    rfl

/-- Witness for C7 at the token "abc". -/
theorem c7_testigo :
    parseDec (formaLimpia "abc") = none ∧ limpiar_importe "abc" = 0 :=
  ⟨by decide, c7_importe_nunca_lanza.2.2.2 "abc" (by decide)⟩

theorem fecha_not_none_of_mem_filtrar {l : List Registro} {y : Nat}
    {r : Registro} (hr : r ∈ filtrar_anio l y) : r.fecha ≠ none := by
  rw [filtrar_anio] at hr
  have hy : anio r = some y := of_decide_eq_true (List.mem_filter.mp hr).2
  intro h0
  rw [anio, h0] at hy
  simp at hy

/-- Claim C8: date coercion yields null instead of raising on unparseable
input; rows are never dropped at load; the year view — through which both
the dashboard aggregates and the budget flow — contains no null-date
record, and the recurrence count ignores null-date records. -/
theorem c8_fechas_nulas :
    parseFecha "sin fecha" = none ∧
    (∀ filas : List FilaCruda, (cargar_registros filas).length = filas.length) ∧
    (∀ (l : List Registro) (y : Nat) (r : Registro),
      r ∈ filtrar_anio l y → r.fecha ≠ none) ∧
    (∀ (l : List Registro) (y : Nat) (r : Registro),
      r ∈ presupuesto (filtrar_anio l y) → r.fecha ≠ none) ∧
    (∀ (l : List Registro) (d : String) (a : Rat) (r0 : Registro),
      month_bucket r0 = none → es_fijo (r0 :: l) d a = es_fijo l d a) := by
  refine ⟨by decide, fun filas => List.length_map _ _,
          fun l y r hr => fecha_not_none_of_mem_filtrar hr,
          fun l y r hr => fecha_not_none_of_mem_filtrar
            (mem_filter_of_mem_df_fijos (mem_df_fijos_of_mem_presupuesto hr)),
          fun l d a r0 h0 => ?_⟩
  rw [es_fijo, es_fijo, pair_months_cons_none h0]

/-- Witness for C8 at a null-dated Netflix row and the January record. -/
theorem c8_testigo :
    rG1.fecha ≠ none ∧
    es_fijo (rNulo :: [rN1]) "Netflix" (mkRat (-1299) 100) =
      es_fijo [rN1] "Netflix" (mkRat (-1299) 100) :=
  ⟨c8_fechas_nulas.2.2.1 [rG1] 2025 rG1 (by decide),
   c8_fechas_nulas.2.2.2.2 [rN1] "Netflix" (mkRat (-1299) 100) rNulo
     (by decide)⟩

/-- Claim C9: budget deduplication is idempotent — re-running it on its
own output returns that output unchanged. -/
theorem c9_dedupe_idempotente (l : List Registro) :
    dedupe (dedupe l) = dedupe l := by
  have h1 : List.insertionSort fechaRel (dedupe l) = dedupe l :=
    (sorted_dedupe l).insertionSort_eq
  show keepLast (List.insertionSort fechaRel (dedupe l)) = dedupe l
  rw [h1]
  exact keepLast_eq_self (keepLast_descs_nodup _)

/-- Claim C10: a form submission is accepted exactly when the magnitude is
strictly positive, and the persisted amount is nonzero, negative exactly
for "Gasto" and positive exactly for "Ingreso". -/
theorem c10_formulario_entrada (tipo : String) (monto : Rat)
    (htipo : tipo = "Gasto" ∨ tipo = "Ingreso") :
    ((submit_entry tipo monto).isSome = true ↔ 0 < monto) ∧
    (∀ a : Rat, submit_entry tipo monto = some a →
      a ≠ 0 ∧ (a < 0 ↔ tipo = "Gasto") ∧ (0 < a ↔ tipo = "Ingreso")) := by
  constructor
  · by_cases hm : 0 < monto
    · rw [submit_entry, if_pos hm]
      exact iff_of_true rfl hm
    · rw [submit_entry, if_neg hm]
      exact iff_of_false (by simp) hm
  · intro a ha
    by_cases hm : 0 < monto
    · rw [submit_entry, if_pos hm] at ha
      have haa : a = monto_final tipo monto := (Option.some.inj ha).symm
      rcases htipo with rfl | rfl
      · rw [monto_final, if_pos rfl] at haa
        subst haa
        have hneg : -monto < 0 := neg_lt_zero.mpr hm
        exact ⟨ne_of_lt hneg, iff_of_true hneg rfl,
          iff_of_false (lt_asymm hneg) (by decide)⟩
      · rw [monto_final, if_neg (by decide)] at haa
        subst haa
        exact ⟨ne_of_gt hm, iff_of_false (lt_asymm hm) (by decide),
          iff_of_true hm rfl⟩
    · rw [submit_entry, if_neg hm] at ha
      simp at ha

/-- Witness for C10 at a Gasto of magnitude 7. -/
theorem c10_testigo :
    (submit_entry "Gasto" 7).isSome = true ∧ (-7 : Rat) ≠ 0 :=
  ⟨((c10_formulario_entrada "Gasto" 7 (Or.inl rfl)).1).mpr (by decide),
   ((c10_formulario_entrada "Gasto" 7 (Or.inl rfl)).2 (-7) (by decide)).1⟩
